import Mathlib

/-!
Verification of the permission middleware, gradebook aggregation, statistics
cache and grading mutation of the LXP school-management server.

The definitions below are shallow embeddings of the TypeScript source:
* `enforceUserHasPermission`, `permissionProtectedProcedure` — the tRPC
  middleware (src/unnamed/part_002); role permission lookup
  `RolePermissions[role] || []` is passed as a total function parameter.
* `getOverview` — the gradebook overview aggregation (src/unnamed/part_000).
* `cacheGet` / `cacheSet` / `cacheLookup` — the `statsCache` map and its
  TTL read pattern (src/src/server/api/routers/attendance.ts).
* `gradeActivity` / `upsertSubmission` — the grading mutation
  (src/unnamed/part_000).
JavaScript numbers are modelled as exact rationals, timestamps as naturals.
-/

/-- Error codes of the tRPC errors thrown by the embedded handlers. -/
inductive TRPCErrorCode where
  | UNAUTHORIZED
  | FORBIDDEN
  | BAD_REQUEST
  | NOT_FOUND
  | INTERNAL_SERVER_ERROR
deriving DecidableEq, Repr

/-- A thrown `TRPCError` with its code and message. -/
structure TRPCError where
  code : TRPCErrorCode
  message : String
deriving DecidableEq, Repr

/-- The error thrown when no session user is present: tRPC code
`UNAUTHORIZED`, the "unauthenticated" case of the spec taxonomy. -/
def unauthenticatedError : TRPCError :=
  ⟨TRPCErrorCode.UNAUTHORIZED, "You must be logged in to access this resource"⟩

/-- The error thrown when the required permission is missing: tRPC code
`FORBIDDEN`, the "unauthorized" case of the spec taxonomy. -/
def unauthorizedError : TRPCError :=
  ⟨TRPCErrorCode.FORBIDDEN, "You do not have permission to access this resource"⟩

/-- The session user: `session.user` with its `id`, `roles` and the
`permissions` field the middleware attaches. -/
structure SessionUser where
  id : String
  roles : List String
  permissions : List String
deriving DecidableEq, Repr

/-- The next-auth session; `user` is optional because the code guards with
`ctx.session?.user`. -/
structure Session where
  user : Option SessionUser
deriving DecidableEq, Repr

/-- The tRPC request context (the `prisma` handle is irrelevant here). -/
structure Context where
  session : Option Session
deriving DecidableEq, Repr

/-- Embeds `enforceUserHasPermission` from src/unnamed/part_002.  The static
`RolePermissions` table (with its `|| []` fallback for unmapped roles) is the
function parameter `tbl`.  The middleware decision is an `Except`: an `error`
is a thrown `TRPCError`, an `ok` carries the context handed to `next`. -/
def enforceUserHasPermission (tbl : String → List String) (requiredPermission : String)
    (ctx : Context) : Except TRPCError Context :=
  match ctx.session with
  | none => Except.error unauthenticatedError
  | some s =>
    match s.user with
    | none => Except.error unauthenticatedError
    | some u =>
      let userPermissions := u.roles.flatMap tbl
      if userPermissions.contains requiredPermission then
        Except.ok { ctx with
          session := some { s with user := some { u with permissions := userPermissions } } }
      else
        Except.error unauthorizedError

/-- Embeds `permissionProtectedProcedure` from src/unnamed/part_002: the
middleware runs first and only on success does the wrapped handler run. -/
def permissionProtectedProcedure {α : Type} (tbl : String → List String)
    (permission : String) (handler : Context → Except TRPCError α)
    (ctx : Context) : Except TRPCError α :=
  (enforceUserHasPermission tbl permission ctx).bind handler

/-- JavaScript truthiness of an optional numeric field: `null`/`undefined`
and `0` are falsy.  Embeds the guard `submission.obtainedMarks &&
submission.totalMarks` of src/unnamed/part_000. -/
def truthy : Option ℚ → Bool
  | none => false
  | some x => decide (x ≠ 0)

/-- A submission row as selected by `getOverview`: nullable obtained and
total marks. -/
structure Submission where
  obtainedMarks : Option ℚ
  totalMarks : Option ℚ
deriving DecidableEq, Repr

/-- A class activity with its submissions. -/
structure ClassActivity where
  submissions : List Submission
deriving DecidableEq, Repr

/-- The grade distribution buckets. -/
structure GradeDistribution where
  A : ℕ
  B : ℕ
  C : ℕ
  D : ℕ
  F : ℕ
deriving DecidableEq, Repr

/-- The mutable accumulator of the `getOverview` loop. -/
structure OverviewState where
  totalGrades : ℚ
  highestGrade : ℚ
  lowestGrade : ℚ
  A : ℕ
  B : ℕ
  C : ℕ
  D : ℕ
  F : ℕ
deriving DecidableEq, Repr

/-- Initial accumulator: totals 0, highest 0, lowest 100, empty buckets. -/
def initOverviewState : OverviewState :=
  { totalGrades := 0, highestGrade := 0, lowestGrade := 100,
    A := 0, B := 0, C := 0, D := 0, F := 0 }

/-- The guard under which `getOverview` processes a submission: both mark
fields present and nonzero. -/
def includedSub (s : Submission) : Bool :=
  truthy s.obtainedMarks && truthy s.totalMarks

/-- The percentage `(obtainedMarks / totalMarks) * 100` of a submission
(the `getD 0` defaults are irrelevant under `includedSub`). -/
def pct (s : Submission) : ℚ :=
  s.obtainedMarks.getD 0 / s.totalMarks.getD 0 * 100

/-- The five letter grades. -/
inductive Bucket where
  | A
  | B
  | C
  | D
  | F
deriving DecidableEq, Repr

/-- The `if grade >= 90 / 80 / 70 / 60` chain of src/unnamed/part_000,
factored as the bucket it selects. -/
def bucketOf (grade : ℚ) : Bucket :=
  if grade ≥ 90 then Bucket.A
  else if grade ≥ 80 then Bucket.B
  else if grade ≥ 70 then Bucket.C
  else if grade ≥ 60 then Bucket.D
  else Bucket.F

/-- Increment the counter of one bucket (`gradeDistribution.X++`). -/
def addBucket (st : OverviewState) : Bucket → OverviewState
  | Bucket.A => { st with A := st.A + 1 }
  | Bucket.B => { st with B := st.B + 1 }
  | Bucket.C => { st with C := st.C + 1 }
  | Bucket.D => { st with D := st.D + 1 }
  | Bucket.F => { st with F := st.F + 1 }

/-- One iteration of the `getOverview` submission loop of
src/unnamed/part_000: under the truthiness guard it adds the percentage to
the running total, updates highest/lowest by `Math.max`/`Math.min`, and
increments the bucket selected by the `if grade >= 90 / 80 / 70 / 60` chain
(`bucketOf`); otherwise it leaves the accumulator unchanged. -/
def processSubmission (st : OverviewState) (s : Submission) : OverviewState :=
  if includedSub s then
    let grade := pct s
    addBucket { st with
      totalGrades := st.totalGrades + grade,
      highestGrade := max st.highestGrade grade,
      lowestGrade := min st.lowestGrade grade } (bucketOf grade)
  else st

/-- The value returned by `getOverview`. -/
structure Overview where
  classAverage : ℚ
  highestGrade : ℚ
  lowestGrade : ℚ
  distribution : GradeDistribution
  totalStudents : ℕ
deriving DecidableEq, Repr

/-- Embeds `getOverview` from src/unnamed/part_000: the nested
`forEach` over activities and submissions, the total submission count
`activities.reduce((acc, act) => acc + act.submissions.length, 0)`, and
`classAverage = totalSubmissions > 0 ? totalGrades / totalSubmissions : 0`. -/
def getOverview (activities : List ClassActivity) (totalStudents : ℕ) : Overview :=
  let st := activities.foldl (fun acc a => a.submissions.foldl processSubmission acc)
    initOverviewState
  let totalSubmissions : ℕ := activities.foldl (fun acc a => acc + a.submissions.length) 0
  let classAverage := if 0 < totalSubmissions then st.totalGrades / (totalSubmissions : ℚ) else 0
  { classAverage := classAverage,
    highestGrade := st.highestGrade,
    lowestGrade := st.lowestGrade,
    distribution := { A := st.A, B := st.B, C := st.C, D := st.D, F := st.F },
    totalStudents := totalStudents }

/-- Read one bucket counter of the accumulator. -/
def bucketCount (st : OverviewState) : Bucket → ℕ
  | Bucket.A => st.A
  | Bucket.B => st.B
  | Bucket.C => st.C
  | Bucket.D => st.D
  | Bucket.F => st.F

/-- The percentages of the submissions the loop actually processes, in
order: both mark fields present and nonzero. -/
def includedPcts (subs : List Submission) : List ℚ :=
  (subs.filter includedSub).map pct

/-- Specification-side restatement of the overview aggregation: only the
included submissions (both mark fields present and nonzero) enter the grade
sum, the extrema and the buckets, while the average divides the included sum
by the count of ALL submissions, and is 0 when there are none. -/
def overviewSpec (activities : List ClassActivity) (totalStudents : ℕ) : Overview :=
  let subs := activities.flatMap (fun a => a.submissions)
  let pcts := includedPcts subs
  { classAverage := if 0 < subs.length then pcts.sum / (subs.length : ℚ) else 0,
    highestGrade := pcts.foldl max 0,
    lowestGrade := pcts.foldl min 100,
    distribution :=
      { A := pcts.countP (fun g => decide (90 ≤ g)),
        B := pcts.countP (fun g => decide (80 ≤ g ∧ g < 90)),
        C := pcts.countP (fun g => decide (70 ≤ g ∧ g < 80)),
        D := pcts.countP (fun g => decide (60 ≤ g ∧ g < 70)),
        F := pcts.countP (fun g => decide (g < 60)) },
    totalStudents := totalStudents }

/-- The cache TTL: `CACHE_DURATION = 5 * 60 * 1000` milliseconds
(src/src/server/api/routers/attendance.ts). -/
def CACHE_DURATION : ℕ := 5 * 60 * 1000

/-- One entry of `statsCache`: `(data, timestamp)`. -/
structure CacheEntry (α : Type) where
  data : α
  timestamp : ℕ

/-- The `statsCache` JavaScript `Map`, modelled by its observable lookup
behaviour: key to optional entry. -/
def Cache (α : Type) : Type := String → Option (CacheEntry α)

/-- The empty map `new Map()`. -/
def emptyCache (α : Type) : Cache α := fun _ => none

/-- Embeds `statsCache.get(key)`. -/
def cacheGet {α : Type} (c : Cache α) (k : String) : Option (CacheEntry α) := c k

/-- Embeds `statsCache.set(key, entry)`: overwrite the entry at `key`,
leaving every other key unchanged. -/
def cacheSet {α : Type} (c : Cache α) (k : String) (e : CacheEntry α) : Cache α :=
  fun q => if q = k then some e else c q

/-- Embeds the guarded read
`if (cached && Date.now() - cached.timestamp < CACHE_DURATION) return cached.data`
of `getStats`/`getDashboardData`: a hit returns the cached payload, anything
else (no entry, or an entry at least `CACHE_DURATION` old) is a miss
(`none`).  Natural subtraction agrees with the JavaScript comparison: an
entry timestamped in the future also hits, since its age compares below the
TTL either way. -/
def cacheLookup {α : Type} (c : Cache α) (k : String) (now : ℕ) : Option α :=
  match cacheGet c k with
  | some e => if now - e.timestamp < CACHE_DURATION then some e.data else none
  | none => none

/-- The cache key `stats_` + user id built by `getStats`. -/
def statsCacheKey (userId : String) : String := "stats_" ++ userId

/-- The cache key `dashboard_` + user id built by `getDashboardData`. -/
def dashboardCacheKey (userId : String) : String := "dashboard_" ++ userId

/-- Embeds the caching skeleton of `getStats` (and, with the other key,
`getDashboardData`): on a hit return the cached payload and leave the cache
alone; on a miss compute, store with the current timestamp and return. -/
def getStatsCached {α : Type} (compute : α) (c : Cache α) (userId : String)
    (now : ℕ) : α × Cache α :=
  let cacheKey := statsCacheKey userId
  match cacheLookup c cacheKey now with
  | some payload => (payload, c)
  | none => (compute, cacheSet c cacheKey ⟨compute, now⟩)

/-- The validated input of the `gradeActivity` mutation. -/
structure GradeInput where
  activityId : String
  studentId : String
  obtainedMarks : ℚ
  totalMarks : ℚ
  feedback : Option String
deriving DecidableEq, Repr

/-- A stored `activitySubmission` row with the fields `gradeActivity`
writes. -/
structure SubmissionRecord where
  activityId : String
  studentId : String
  obtainedMarks : ℚ
  totalMarks : ℚ
  feedback : Option String
  gradedBy : String
  gradedAt : ℕ
  status : String
  isPassing : Bool
  gradingType : String
deriving DecidableEq, Repr

/-- The persistent state `gradeActivity` touches: the existing activity ids
and the submission table. -/
structure GradebookDB where
  activityIds : List String
  submissions : List SubmissionRecord
deriving DecidableEq, Repr

/-- The `activityId_studentId` unique-key test of the upsert. -/
def sameKey (aid sid : String) (s : SubmissionRecord) : Bool :=
  s.activityId == aid && s.studentId == sid

/-- The `(activityId, studentId)` key of a record. -/
def keyOf (s : SubmissionRecord) : String × String := (s.activityId, s.studentId)

/-- Embeds `prisma.activitySubmission.upsert` on the compound unique key
`activityId_studentId`: if a row with the key exists it is updated in place
(the update payload carries every field, so the row is replaced), otherwise
a new row is appended. -/
def upsertSubmission (db : GradebookDB) (r : SubmissionRecord) : GradebookDB :=
  if db.submissions.any (sameKey r.activityId r.studentId) then
    { db with submissions :=
        db.submissions.map (fun s => if sameKey r.activityId r.studentId s then r else s) }
  else
    { db with submissions := db.submissions ++ [r] }

/-- Find the submission stored under a key. -/
def findSubmission (db : GradebookDB) (aid sid : String) : Option SubmissionRecord :=
  db.submissions.find? (sameKey aid sid)

/-- The `submissionData` object built by a `gradeActivity` call from its
input, the grading session user and the grading instant: status GRADED,
`isPassing` iff `obtainedMarks >= totalMarks * 0.6`, gradingType MANUAL. -/
def submissionDataOf (input : GradeInput) (uid : String) (now : ℕ) : SubmissionRecord :=
  { activityId := input.activityId,
    studentId := input.studentId,
    obtainedMarks := input.obtainedMarks,
    totalMarks := input.totalMarks,
    feedback := input.feedback,
    gradedBy := uid,
    gradedAt := now,
    status := "GRADED",
    isPassing := decide (input.obtainedMarks ≥ input.totalMarks * 0.6),
    gradingType := "MANUAL" }

/-- Embeds the `gradeActivity` mutation of src/unnamed/part_000: session
check, `obtainedMarks > totalMarks` validation, activity existence check, and
the upsert of the submission data (`submissionDataOf`).  The returned pair is
the thrown error or created/updated row, together with the resulting
persistent state; on every error path the state is returned unchanged,
because the code throws before calling the upsert. -/
def gradeActivity (db : GradebookDB) (sessionUserId : Option String)
    (input : GradeInput) (now : ℕ) : Except TRPCError SubmissionRecord × GradebookDB :=
  match sessionUserId with
  | none => (Except.error ⟨TRPCErrorCode.UNAUTHORIZED, "User session not found"⟩, db)
  | some uid =>
    if input.obtainedMarks > input.totalMarks then
      (Except.error ⟨TRPCErrorCode.BAD_REQUEST, "Obtained marks cannot exceed total marks"⟩, db)
    else if input.activityId ∈ db.activityIds then
      let submissionData := submissionDataOf input uid now
      (Except.ok submissionData, upsertSubmission db submissionData)
    else
      (Except.error ⟨TRPCErrorCode.NOT_FOUND, "Activity not found"⟩, db)

/-- No two stored submissions share the `(activityId, studentId)` unique
key. -/
def uniquePerPair (l : List SubmissionRecord) : Prop :=
  l.Pairwise (fun a b => keyOf a ≠ keyOf b)

/-- C1: For every session whose role set is `u.roles` and permission `p`, the
middleware grants access (returns `ok`) iff `p` lies in the union of the
table's permission sets over all of the session's roles — some role `r` of
the session has `p ∈ tbl r`, not merely the first matching role. -/
theorem enforce_grants_iff_union (tbl : String → List String) (p : String)
    (ctx : Context) (s : Session) (u : SessionUser)
    (hs : ctx.session = some s) (hu : s.user = some u) :
    (enforceUserHasPermission tbl p ctx).isOk = true ↔ ∃ r ∈ u.roles, p ∈ tbl r := by
  by_cases h : ∃ r ∈ u.roles, p ∈ tbl r
  · simp [enforceUserHasPermission, hs, hu, Except.isOk, Except.toBool, h]
  · simp [enforceUserHasPermission, hs, hu, Except.isOk, Except.toBool, h]

/-- Witness for C1: a session carrying roles STUDENT and TEACHER is granted
grade_activity, which only the second role maps to. -/
theorem enforce_grants_iff_union_witness :
    (enforceUserHasPermission
      (fun r => if r = "TEACHER" then ["grade_activity"] else [])
      "grade_activity"
      ⟨some ⟨some ⟨"u1", ["STUDENT", "TEACHER"], []⟩⟩⟩).isOk = true :=
  (enforce_grants_iff_union
      (fun r => if r = "TEACHER" then ["grade_activity"] else [])
      "grade_activity"
      ⟨some ⟨some ⟨"u1", ["STUDENT", "TEACHER"], []⟩⟩⟩
      ⟨some ⟨"u1", ["STUDENT", "TEACHER"], []⟩⟩
      ⟨"u1", ["STUDENT", "TEACHER"], []⟩ rfl rfl).mpr
    ⟨"TEACHER", by simp, by simp⟩

/-- C2: without a session the wrapper fails with the unauthenticated error,
and with a session whose effective permission union misses the required token
it fails with the unauthorized error; in both cases the result is this error
for every handler, so the wrapped handler never runs. -/
theorem wrapper_rejections {α : Type} (tbl : String → List String) (p : String)
    (handler : Context → Except TRPCError α) (ctx : Context) :
    (ctx.session = none →
      permissionProtectedProcedure tbl p handler ctx = Except.error unauthenticatedError)
    ∧ (∀ s u, ctx.session = some s → s.user = some u → p ∉ u.roles.flatMap tbl →
      permissionProtectedProcedure tbl p handler ctx = Except.error unauthorizedError) := by
  constructor
  · intro hnone
    simp [permissionProtectedProcedure, enforceUserHasPermission, hnone, Except.bind]
  · intro s u hs hu hnotin
    have hne : ¬ ∃ r ∈ u.roles, p ∈ tbl r := by
      simpa [List.mem_flatMap] using hnotin
    simp [permissionProtectedProcedure, enforceUserHasPermission, hs, hu, hne, Except.bind]

/-- Witness for C2: a sessionless request and a request whose only role has no
permissions are both rejected without running the handler. -/
theorem wrapper_rejections_witness :
    permissionProtectedProcedure (fun _ => []) "grade_activity"
        (fun _ => Except.ok (37 : Nat)) ⟨none⟩ = Except.error unauthenticatedError
    ∧ permissionProtectedProcedure (fun _ => []) "grade_activity"
        (fun _ => Except.ok (37 : Nat)) ⟨some ⟨some ⟨"u1", ["STUDENT"], []⟩⟩⟩
      = Except.error unauthorizedError :=
  ⟨(wrapper_rejections (fun _ => []) "grade_activity"
      (fun _ => Except.ok (37 : Nat)) ⟨none⟩).1 rfl,
   (wrapper_rejections (fun _ => []) "grade_activity"
      (fun _ => Except.ok (37 : Nat)) ⟨some ⟨some ⟨"u1", ["STUDENT"], []⟩⟩⟩).2
     ⟨some ⟨"u1", ["STUDENT"], []⟩⟩ ⟨"u1", ["STUDENT"], []⟩ rfl rfl (by simp)⟩

theorem addBucket_bucketCount (st : OverviewState) (b b0 : Bucket) :
    bucketCount (addBucket st b) b0
      = bucketCount st b0 + (if b = b0 then 1 else 0) := by
  cases b <;> cases b0 <;> simp [addBucket, bucketCount]

theorem addBucket_totalGrades (st : OverviewState) (b : Bucket) :
    (addBucket st b).totalGrades = st.totalGrades := by
  cases b <;> rfl

theorem addBucket_highestGrade (st : OverviewState) (b : Bucket) :
    (addBucket st b).highestGrade = st.highestGrade := by
  cases b <;> rfl

theorem addBucket_lowestGrade (st : OverviewState) (b : Bucket) :
    (addBucket st b).lowestGrade = st.lowestGrade := by
  cases b <;> rfl

theorem processSubmission_excluded (st : OverviewState) (s : Submission)
    (h : includedSub s = false) : processSubmission st s = st := by
  simp [processSubmission, h]

theorem processSubmission_totalGrades (st : OverviewState) (s : Submission)
    (h : includedSub s = true) :
    (processSubmission st s).totalGrades = st.totalGrades + pct s := by
  simp [processSubmission, h, addBucket_totalGrades]

theorem processSubmission_highestGrade (st : OverviewState) (s : Submission)
    (h : includedSub s = true) :
    (processSubmission st s).highestGrade = max st.highestGrade (pct s) := by
  simp [processSubmission, h, addBucket_highestGrade]

theorem processSubmission_lowestGrade (st : OverviewState) (s : Submission)
    (h : includedSub s = true) :
    (processSubmission st s).lowestGrade = min st.lowestGrade (pct s) := by
  simp [processSubmission, h, addBucket_lowestGrade]

theorem processSubmission_bucketCount (st : OverviewState) (s : Submission)
    (h : includedSub s = true) (b0 : Bucket) :
    bucketCount (processSubmission st s) b0
      = bucketCount st b0 + (if bucketOf (pct s) = b0 then 1 else 0) := by
  simp only [processSubmission, h, if_true]
  exact addBucket_bucketCount _ _ _

theorem includedPcts_cons_included (s : Submission) (rest : List Submission)
    (h : includedSub s = true) :
    includedPcts (s :: rest) = pct s :: includedPcts rest := by
  simp [includedPcts, h]

theorem includedPcts_cons_excluded (s : Submission) (rest : List Submission)
    (h : includedSub s = false) :
    includedPcts (s :: rest) = includedPcts rest := by
  simp [includedPcts, h]

theorem foldl_totalGrades (subs : List Submission) (st : OverviewState) :
    (subs.foldl processSubmission st).totalGrades
      = st.totalGrades + (includedPcts subs).sum := by
  induction subs generalizing st with
  | nil => simp [includedPcts]
  | cons s rest ih =>
    rcases hI : includedSub s with _ | _
    · rw [List.foldl_cons, ih, processSubmission_excluded st s hI,
        includedPcts_cons_excluded s rest hI]
    · rw [List.foldl_cons, ih, processSubmission_totalGrades st s hI,
        includedPcts_cons_included s rest hI, List.sum_cons]
      ring

theorem foldl_highestGrade (subs : List Submission) (st : OverviewState) :
    (subs.foldl processSubmission st).highestGrade
      = (includedPcts subs).foldl max st.highestGrade := by
  induction subs generalizing st with
  | nil => simp [includedPcts]
  | cons s rest ih =>
    rcases hI : includedSub s with _ | _
    · rw [List.foldl_cons, ih, processSubmission_excluded st s hI,
        includedPcts_cons_excluded s rest hI]
    · rw [List.foldl_cons, ih, processSubmission_highestGrade st s hI,
        includedPcts_cons_included s rest hI, List.foldl_cons]

theorem foldl_lowestGrade (subs : List Submission) (st : OverviewState) :
    (subs.foldl processSubmission st).lowestGrade
      = (includedPcts subs).foldl min st.lowestGrade := by
  induction subs generalizing st with
  | nil => simp [includedPcts]
  | cons s rest ih =>
    rcases hI : includedSub s with _ | _
    · rw [List.foldl_cons, ih, processSubmission_excluded st s hI,
        includedPcts_cons_excluded s rest hI]
    · rw [List.foldl_cons, ih, processSubmission_lowestGrade st s hI,
        includedPcts_cons_included s rest hI, List.foldl_cons]

theorem foldl_bucketCount (subs : List Submission) (st : OverviewState) (b0 : Bucket) :
    bucketCount (subs.foldl processSubmission st) b0
      = bucketCount st b0
        + (includedPcts subs).countP (fun g => decide (bucketOf g = b0)) := by
  induction subs generalizing st with
  | nil => simp [includedPcts]
  | cons s rest ih =>
    rcases hI : includedSub s with _ | _
    · rw [List.foldl_cons, ih, processSubmission_excluded st s hI,
        includedPcts_cons_excluded s rest hI]
    · rw [List.foldl_cons, ih, processSubmission_bucketCount st s hI b0,
        includedPcts_cons_included s rest hI, List.countP_cons]
      by_cases hb : bucketOf (pct s) = b0 <;> simp [hb] <;> omega

theorem foldl_activities (activities : List ClassActivity) (st : OverviewState) :
    activities.foldl (fun acc a => a.submissions.foldl processSubmission acc) st
      = (activities.flatMap (fun a => a.submissions)).foldl processSubmission st := by
  induction activities generalizing st with
  | nil => simp
  | cons a rest ih => simp [List.foldl_append, ih]

theorem foldl_length (activities : List ClassActivity) (n : ℕ) :
    activities.foldl (fun acc a => acc + a.submissions.length) n
      = n + (activities.flatMap (fun a => a.submissions)).length := by
  induction activities generalizing n with
  | nil => simp
  | cons a rest ih => simp [ih, List.length_append]; omega

/-- Closed-above bucket boundaries, stated arithmetically: the chain picks A
exactly on percentages at least 90. -/
theorem bucketOf_eq_A (g : ℚ) : bucketOf g = Bucket.A ↔ 90 ≤ g := by
  unfold bucketOf
  split_ifs with h1 h2 h3 h4 <;> simp_all [ge_iff_le, not_le] <;> linarith

/-- The chain picks B exactly on percentages in [80, 90). -/
theorem bucketOf_eq_B (g : ℚ) : bucketOf g = Bucket.B ↔ 80 ≤ g ∧ g < 90 := by
  unfold bucketOf
  split_ifs with h1 h2 h3 h4 <;> simp_all [ge_iff_le, not_le] <;> intros <;> linarith

/-- The chain picks C exactly on percentages in [70, 80). -/
theorem bucketOf_eq_C (g : ℚ) : bucketOf g = Bucket.C ↔ 70 ≤ g ∧ g < 80 := by
  unfold bucketOf
  split_ifs with h1 h2 h3 h4 <;> simp_all [ge_iff_le, not_le] <;> intros <;> linarith

/-- The chain picks D exactly on percentages in [60, 70). -/
theorem bucketOf_eq_D (g : ℚ) : bucketOf g = Bucket.D ↔ 60 ≤ g ∧ g < 70 := by
  unfold bucketOf
  split_ifs with h1 h2 h3 h4 <;> simp_all [ge_iff_le, not_le] <;> intros <;> linarith

/-- The chain picks F exactly on percentages below 60. -/
theorem bucketOf_eq_F (g : ℚ) : bucketOf g = Bucket.F ↔ g < 60 := by
  unfold bucketOf
  split_ifs with h1 h2 h3 h4 <;> simp_all [ge_iff_le, not_le] <;> intros <;> linarith

theorem countP_congr_list (l : List ℚ) (p q : ℚ → Bool)
    (h : ∀ a ∈ l, p a = q a) : l.countP p = l.countP q := by
  induction l with
  | nil => simp
  | cons x xs ih =>
    rw [List.countP_cons, List.countP_cons, h x (by simp),
      ih (fun a ha => h a (by simp [ha]))]

theorem getOverview_eq_overviewSpec (activities : List ClassActivity) (ts : ℕ) :
    getOverview activities ts = overviewSpec activities ts := by
  unfold getOverview overviewSpec
  rw [foldl_activities, foldl_length]
  dsimp only
  rw [foldl_totalGrades, foldl_highestGrade, foldl_lowestGrade]
  have hA := foldl_bucketCount (activities.flatMap (fun a => a.submissions))
    initOverviewState Bucket.A
  have hB := foldl_bucketCount (activities.flatMap (fun a => a.submissions))
    initOverviewState Bucket.B
  have hC := foldl_bucketCount (activities.flatMap (fun a => a.submissions))
    initOverviewState Bucket.C
  have hD := foldl_bucketCount (activities.flatMap (fun a => a.submissions))
    initOverviewState Bucket.D
  have hF := foldl_bucketCount (activities.flatMap (fun a => a.submissions))
    initOverviewState Bucket.F
  simp only [bucketCount, initOverviewState, Nat.zero_add, zero_add] at hA hB hC hD hF
  have eA : (includedPcts (activities.flatMap (fun a => a.submissions))).countP
        (fun g => decide (bucketOf g = Bucket.A))
      = (includedPcts (activities.flatMap (fun a => a.submissions))).countP
        (fun g => decide (90 ≤ g)) :=
    countP_congr_list _ _ _ (fun a _ => decide_eq_decide.mpr (bucketOf_eq_A a))
  have eB : (includedPcts (activities.flatMap (fun a => a.submissions))).countP
        (fun g => decide (bucketOf g = Bucket.B))
      = (includedPcts (activities.flatMap (fun a => a.submissions))).countP
        (fun g => decide (80 ≤ g ∧ g < 90)) :=
    countP_congr_list _ _ _ (fun a _ => decide_eq_decide.mpr (bucketOf_eq_B a))
  have eC : (includedPcts (activities.flatMap (fun a => a.submissions))).countP
        (fun g => decide (bucketOf g = Bucket.C))
      = (includedPcts (activities.flatMap (fun a => a.submissions))).countP
        (fun g => decide (70 ≤ g ∧ g < 80)) :=
    countP_congr_list _ _ _ (fun a _ => decide_eq_decide.mpr (bucketOf_eq_C a))
  have eD : (includedPcts (activities.flatMap (fun a => a.submissions))).countP
        (fun g => decide (bucketOf g = Bucket.D))
      = (includedPcts (activities.flatMap (fun a => a.submissions))).countP
        (fun g => decide (60 ≤ g ∧ g < 70)) :=
    countP_congr_list _ _ _ (fun a _ => decide_eq_decide.mpr (bucketOf_eq_D a))
  have eF : (includedPcts (activities.flatMap (fun a => a.submissions))).countP
        (fun g => decide (bucketOf g = Bucket.F))
      = (includedPcts (activities.flatMap (fun a => a.submissions))).countP
        (fun g => decide (g < 60)) :=
    countP_congr_list _ _ _ (fun a _ => decide_eq_decide.mpr (bucketOf_eq_F a))
  simp only [Overview.mk.injEq, GradeDistribution.mk.injEq, initOverviewState,
    Nat.zero_add, zero_add, hA, hB, hC, hD, hF, eA, eB, eC, eD, eF, and_self]

/-- C3 counterexample: one activity with a 50-percent submission and a
submission whose total marks are 0.  The zero-total submission is excluded
from the grade sum and the buckets, but it still enters `totalSubmissions`,
the divisor of the class average: the code returns 50/2 = 25, while the
claim (sum of included percentages over count of included submissions)
demands 50/1 = 50. -/
theorem overview_average_counterexample :
    (getOverview [⟨[⟨some 50, some 100⟩, ⟨some 10, some 0⟩]⟩] 0).classAverage = 25
    ∧ (25 : ℚ) ≠ 50 := by
  constructor
  · rw [getOverview_eq_overviewSpec]
    norm_num [overviewSpec, includedPcts, includedSub, truthy, pct]
  · norm_num

/-- C3 amended: a submission with zero or missing obtained marks, or zero or
missing total marks, contributes to neither the grade sum nor any
distribution bucket nor the extrema, but it still counts toward the total
submission count; the class average is the sum of the included submissions'
percentages divided by the count of ALL submissions, and 0 when the class
has no submissions at all. -/
theorem overview_matches_filtered_spec (activities : List ClassActivity) (ts : ℕ) :
    getOverview activities ts = overviewSpec activities ts :=
  getOverview_eq_overviewSpec activities ts

/-- C4: an included submission is assigned to exactly one bucket — the one
selected by `bucketOf` is incremented and every other bucket is unchanged —
and the boundaries are closed above: A exactly on percentages at least 90,
B on [80, 90), C on [70, 80), D on [60, 70) and F below 60. -/
theorem bucket_assignment_boundaries (st : OverviewState) (s : Submission)
    (h : includedSub s = true) :
    (bucketCount (processSubmission st s) (bucketOf (pct s))
        = bucketCount st (bucketOf (pct s)) + 1)
    ∧ (∀ b, b ≠ bucketOf (pct s) →
        bucketCount (processSubmission st s) b = bucketCount st b)
    ∧ (bucketOf (pct s) = Bucket.A ↔ 90 ≤ pct s)
    ∧ (bucketOf (pct s) = Bucket.B ↔ 80 ≤ pct s ∧ pct s < 90)
    ∧ (bucketOf (pct s) = Bucket.C ↔ 70 ≤ pct s ∧ pct s < 80)
    ∧ (bucketOf (pct s) = Bucket.D ↔ 60 ≤ pct s ∧ pct s < 70)
    ∧ (bucketOf (pct s) = Bucket.F ↔ pct s < 60) := by
  refine ⟨?_, ?_, bucketOf_eq_A _, bucketOf_eq_B _, bucketOf_eq_C _,
    bucketOf_eq_D _, bucketOf_eq_F _⟩
  · rw [processSubmission_bucketCount st s h, if_pos rfl]
  · intro b hb
    rw [processSubmission_bucketCount st s h, if_neg (fun he => hb he.symm),
      Nat.add_zero]

/-- Witness for C4: a 90/100 submission has percentage exactly 90 and falls
in bucket A; an 89999/100000 submission has percentage 89.999 and falls in
bucket B. -/
theorem bucket_assignment_boundaries_witness :
    bucketOf (pct ⟨some 90, some 100⟩) = Bucket.A
    ∧ bucketOf (pct ⟨some 89999, some 100000⟩) = Bucket.B :=
  ⟨(bucket_assignment_boundaries initOverviewState ⟨some 90, some 100⟩
      (by norm_num [includedSub, truthy])).2.2.1.mpr
      (by norm_num [pct]),
   (bucket_assignment_boundaries initOverviewState ⟨some 89999, some 100000⟩
      (by norm_num [includedSub, truthy])).2.2.2.1.mpr
      (by norm_num [pct])⟩

/-- C5: when no submission passes the truthiness guard, nothing updates the
accumulators, so `getOverview` returns classAverage 0, highestGrade 0 and
the untouched lowest-grade sentinel 100. -/
theorem overview_no_qualifying_defaults (activities : List ClassActivity) (ts : ℕ)
    (h : includedPcts (activities.flatMap (fun a => a.submissions)) = []) :
    (getOverview activities ts).classAverage = 0
    ∧ (getOverview activities ts).highestGrade = 0
    ∧ (getOverview activities ts).lowestGrade = 100 := by
  rw [getOverview_eq_overviewSpec]
  unfold overviewSpec
  simp [h]

/-- Witness for C5: a class whose only submission has obtained marks 0 (and
so is excluded by the truthiness guard) yields the initial values 0, 0, 100. -/
theorem overview_no_qualifying_defaults_witness :
    (getOverview [⟨[⟨some 0, some 10⟩]⟩] 3).classAverage = 0
    ∧ (getOverview [⟨[⟨some 0, some 10⟩]⟩] 3).highestGrade = 0
    ∧ (getOverview [⟨[⟨some 0, some 10⟩]⟩] 3).lowestGrade = 100 :=
  overview_no_qualifying_defaults [⟨[⟨some 0, some 10⟩]⟩] 3
    (by simp [includedPcts, includedSub, truthy])

/-- C6: a get at the put's own timestamp returns the stored payload; a get
returns a payload exactly when an entry exists for the key whose age is
strictly below the TTL; a put stores the payload with its timestamp at the
key, overwriting any prior entry there and leaving all other keys alone. -/
theorem cache_get_put_ttl {α : Type} (c : Cache α) (k k2 : String) (v : α)
    (t now : ℕ) :
    cacheLookup (cacheSet c k ⟨v, t⟩) k t = some v
    ∧ (∀ w : α, cacheLookup c k now = some w ↔
        ∃ e, cacheGet c k = some e ∧ e.data = w ∧ now - e.timestamp < CACHE_DURATION)
    ∧ cacheGet (cacheSet c k ⟨v, t⟩) k = some ⟨v, t⟩
    ∧ (k2 ≠ k → cacheGet (cacheSet c k ⟨v, t⟩) k2 = cacheGet c k2) := by
  refine ⟨?_, ?_, ?_, ?_⟩
  · simp [cacheLookup, cacheGet, cacheSet, CACHE_DURATION]
  · intro w
    unfold cacheLookup
    cases he : cacheGet c k with
    | none => simp
    | some e =>
      by_cases ht : now - e.timestamp < CACHE_DURATION
      · simp [ht, eq_comm]
      · simp [ht]
  · simp [cacheGet, cacheSet]
  · intro hne
    simp [cacheGet, cacheSet, hne]

/-- Witness for C6: storing 42 under the stats key of user u1 makes an
immediate get return 42 and leaves user u2's key untouched. -/
theorem cache_get_put_ttl_witness :
    cacheLookup (cacheSet (emptyCache ℕ) (statsCacheKey "u1") ⟨42, 1000⟩)
      (statsCacheKey "u1") 1000 = some 42
    ∧ cacheGet (cacheSet (emptyCache ℕ) (statsCacheKey "u1") ⟨42, 1000⟩)
      (statsCacheKey "u2") = cacheGet (emptyCache ℕ) (statsCacheKey "u2") :=
  ⟨(cache_get_put_ttl (emptyCache ℕ) (statsCacheKey "u1") (statsCacheKey "u2")
      42 1000 1000).1,
   (cache_get_put_ttl (emptyCache ℕ) (statsCacheKey "u1") (statsCacheKey "u2")
      42 1000 1000).2.2.2 (by decide)⟩

/-- C7: both key derivations are deterministic functions (injective in the
user id), and a stats key never collides with a dashboard key. -/
theorem cache_keys_disjoint_injective (u v : String) :
    (statsCacheKey u = statsCacheKey v ↔ u = v)
    ∧ (dashboardCacheKey u = dashboardCacheKey v ↔ u = v)
    ∧ statsCacheKey u ≠ dashboardCacheKey v := by
  refine ⟨⟨fun h => ?_, fun h => by rw [h]⟩, ⟨fun h => ?_, fun h => by rw [h]⟩, fun h => ?_⟩
  · have hd := congrArg String.data h
    simp only [statsCacheKey, String.data_append] at hd
    exact String.ext (List.append_cancel_left hd)
  · have hd := congrArg String.data h
    simp only [dashboardCacheKey, String.data_append] at hd
    exact String.ext (List.append_cancel_left hd)
  · have hd := congrArg String.data h
    simp only [statsCacheKey, dashboardCacheKey, String.data_append] at hd
    simp only [List.cons_append, List.cons.injEq] at hd
    exact absurd hd.1 (by decide)

/-- Witness for C7: the stats key and dashboard key of two users never
coincide. -/
theorem cache_keys_disjoint_injective_witness :
    statsCacheKey "alice" ≠ dashboardCacheKey "bob" :=
  (cache_keys_disjoint_injective "alice" "bob").2.2

theorem sameKey_iff (aid sid : String) (s : SubmissionRecord) :
    sameKey aid sid s = true ↔ s.activityId = aid ∧ s.studentId = sid := by
  simp [sameKey]

theorem sameKey_self (r : SubmissionRecord) :
    sameKey r.activityId r.studentId r = true := by
  simp [sameKey]

theorem keyOf_eq_iff (aid sid : String) (s : SubmissionRecord) :
    keyOf s = (aid, sid) ↔ s.activityId = aid ∧ s.studentId = sid := by
  simp [keyOf, Prod.ext_iff]

theorem keyOf_replace (r x : SubmissionRecord) :
    keyOf (if sameKey r.activityId r.studentId x then r else x) = keyOf x := by
  by_cases hx : sameKey r.activityId r.studentId x = true
  · rw [if_pos hx]
    obtain ⟨h1, h2⟩ := (sameKey_iff _ _ _).mp hx
    simp [keyOf, h1, h2]
  · rw [if_neg hx]

theorem find?_map_replace (l : List SubmissionRecord) (r : SubmissionRecord) :
    (l.map (fun s => if sameKey r.activityId r.studentId s then r else s)).find?
        (sameKey r.activityId r.studentId)
      = if l.any (sameKey r.activityId r.studentId) then some r else none := by
  induction l with
  | nil => simp
  | cons x xs ih =>
    by_cases hx : sameKey r.activityId r.studentId x = true
    · simp only [List.map_cons, if_pos hx, List.any_cons, hx, Bool.true_or,
        if_true, List.find?_cons_of_pos _ (sameKey_self r)]
    · rw [List.map_cons, if_neg hx, List.find?_cons_of_neg _ hx, ih,
        List.any_cons, Bool.eq_false_iff.mpr hx, Bool.false_or]

theorem findSubmission_upsert (db : GradebookDB) (r : SubmissionRecord) :
    findSubmission (upsertSubmission db r) r.activityId r.studentId = some r := by
  unfold findSubmission upsertSubmission
  split_ifs with hany
  · simp only [find?_map_replace, hany, if_true]
  · have hall := List.any_eq_false.mp (Bool.eq_false_iff.mpr hany)
    have hnone : db.submissions.find? (sameKey r.activityId r.studentId) = none := by
      rw [List.find?_eq_none]
      intro x hx
      exact hall x hx
    simp only [List.find?_append, hnone, Option.none_or,
      List.find?_cons_of_pos _ (sameKey_self r)]

theorem uniquePerPair_upsert (db : GradebookDB) (r : SubmissionRecord)
    (h : uniquePerPair db.submissions) :
    uniquePerPair (upsertSubmission db r).submissions := by
  unfold upsertSubmission
  split_ifs with hany
  · simp only [uniquePerPair, List.pairwise_map]
    exact h.imp (fun hab => by rwa [keyOf_replace, keyOf_replace])
  · rw [uniquePerPair, List.pairwise_append]
    refine ⟨h, List.pairwise_singleton _ _, ?_⟩
    intro a ha b hb
    simp only [List.mem_singleton] at hb
    intro hk
    rw [hb] at hk
    have hsk : sameKey r.activityId r.studentId a = true := by
      rw [sameKey_iff]
      exact (keyOf_eq_iff _ _ _).mp hk
    exact List.any_eq_false.mp (Bool.eq_false_iff.mpr hany) a ha hsk

theorem gradeActivity_ok_inv (db : GradebookDB) (uid : String) (input : GradeInput)
    (now : ℕ) (r : SubmissionRecord) (db2 : GradebookDB)
    (h : gradeActivity db (some uid) input now = (Except.ok r, db2)) :
    r = submissionDataOf input uid now ∧ db2 = upsertSubmission db r := by
  by_cases h1 : input.obtainedMarks > input.totalMarks
  · simp [gradeActivity, h1] at h
  · by_cases h2 : input.activityId ∈ db.activityIds
    · simp only [gradeActivity, if_neg h1, if_pos h2, Prod.mk.injEq,
        Except.ok.injEq] at h
      obtain ⟨hr, hdb⟩ := h
      subst hr
      exact ⟨rfl, hdb.symm⟩
    · simp [gradeActivity, h1, h2] at h

/-- C8: whenever obtained marks exceed total marks, `gradeActivity` fails
with the bad-request error and returns the persistent state unchanged: the
validation throws before the upsert runs. -/
theorem gradeActivity_validation_rejects (db : GradebookDB) (uid : String)
    (input : GradeInput) (now : ℕ)
    (h : input.obtainedMarks > input.totalMarks) :
    gradeActivity db (some uid) input now
      = (Except.error ⟨TRPCErrorCode.BAD_REQUEST,
          "Obtained marks cannot exceed total marks"⟩, db) := by
  simp [gradeActivity, h]

/-- Witness for C8: grading 101 out of 100 is rejected as a bad request and
the submission table stays empty. -/
theorem gradeActivity_validation_rejects_witness :
    gradeActivity ⟨["a1"], []⟩ (some "t1") ⟨"a1", "s1", 101, 100, none⟩ 7
      = (Except.error ⟨TRPCErrorCode.BAD_REQUEST,
          "Obtained marks cannot exceed total marks"⟩, ⟨["a1"], []⟩) :=
  gradeActivity_validation_rejects ⟨["a1"], []⟩ "t1" ⟨"a1", "s1", 101, 100, none⟩ 7
    (by norm_num)

/-- C9: on every successful `gradeActivity` call the stored submission is
passing exactly when obtained marks are at least 60 percent of total marks,
and that record is what a lookup of the graded pair now finds. -/
theorem gradeActivity_isPassing_threshold (db : GradebookDB) (uid : String)
    (input : GradeInput) (now : ℕ) (r : SubmissionRecord) (db2 : GradebookDB)
    (h : gradeActivity db (some uid) input now = (Except.ok r, db2)) :
    (r.isPassing = true ↔ input.obtainedMarks ≥ 0.6 * input.totalMarks)
    ∧ findSubmission db2 input.activityId input.studentId = some r := by
  obtain ⟨hr, hdb⟩ := gradeActivity_ok_inv db uid input now r db2 h
  subst hr
  subst hdb
  constructor
  · simp [submissionDataOf, ge_iff_le, mul_comm]
  · simpa [submissionDataOf] using
      findSubmission_upsert db (submissionDataOf input uid now)

/-- Witness for C9: grading 80 out of 100 stores a passing record, found
under its activity and student ids. -/
theorem gradeActivity_isPassing_threshold_witness :
    ((⟨"a1", "s1", 80, 100, none, "t1", 5, "GRADED", true, "MANUAL"⟩ :
        SubmissionRecord).isPassing = true ↔ (80 : ℚ) ≥ 0.6 * 100)
    ∧ findSubmission
        ⟨["a1"], [⟨"a1", "s1", 80, 100, none, "t1", 5, "GRADED", true, "MANUAL"⟩]⟩
        "a1" "s1"
      = some ⟨"a1", "s1", 80, 100, none, "t1", 5, "GRADED", true, "MANUAL"⟩ :=
  gradeActivity_isPassing_threshold ⟨["a1"], []⟩ "t1" ⟨"a1", "s1", 80, 100, none⟩ 5
    ⟨"a1", "s1", 80, 100, none, "t1", 5, "GRADED", true, "MANUAL"⟩
    ⟨["a1"], [⟨"a1", "s1", 80, 100, none, "t1", 5, "GRADED", true, "MANUAL"⟩]⟩
    (by norm_num [gradeActivity, submissionDataOf, upsertSubmission, sameKey])

/-- C10: a successful `gradeActivity` preserves key uniqueness of the
submission table; the graded pair afterwards maps to the new record, which
carries the later call's marks, feedback, grader and timestamp; if a record
with the pair already existed the table length is unchanged (update in
place), otherwise exactly one record is appended. -/
theorem gradeActivity_upsert_unique (db : GradebookDB) (uid : String)
    (input : GradeInput) (now : ℕ) (r : SubmissionRecord) (db2 : GradebookDB)
    (h1 : uniquePerPair db.submissions)
    (h2 : gradeActivity db (some uid) input now = (Except.ok r, db2)) :
    uniquePerPair db2.submissions
    ∧ findSubmission db2 input.activityId input.studentId = some r
    ∧ r.obtainedMarks = input.obtainedMarks
    ∧ r.totalMarks = input.totalMarks
    ∧ r.feedback = input.feedback
    ∧ r.gradedBy = uid
    ∧ r.gradedAt = now
    ∧ (db.submissions.any (sameKey input.activityId input.studentId) = true →
        db2.submissions.length = db.submissions.length)
    ∧ (db.submissions.any (sameKey input.activityId input.studentId) = false →
        db2.submissions.length = db.submissions.length + 1) := by
  obtain ⟨hr, hdb⟩ := gradeActivity_ok_inv db uid input now r db2 h2
  subst hr
  subst hdb
  refine ⟨uniquePerPair_upsert db _ h1, ?_, rfl, rfl, rfl, rfl, rfl, ?_, ?_⟩
  · simpa [submissionDataOf] using
      findSubmission_upsert db (submissionDataOf input uid now)
  · intro hany
    have hany2 : db.submissions.any
        (sameKey (submissionDataOf input uid now).activityId
          (submissionDataOf input uid now).studentId) = true := hany
    simp only [upsertSubmission, if_pos hany2, List.length_map]
  · intro hany
    have hany2 : db.submissions.any
        (sameKey (submissionDataOf input uid now).activityId
          (submissionDataOf input uid now).studentId) = false := hany
    simp only [upsertSubmission,
      if_neg (by simp [hany2] : ¬ db.submissions.any
        (sameKey (submissionDataOf input uid now).activityId
          (submissionDataOf input uid now).studentId) = true),
      List.length_append, List.length_singleton]

/-- Witness for C10: regrading the already-graded pair (a1, s1) replaces the
old 50/100 record by the new 90/100 record in place — the table still holds
one record, the new one. -/
theorem gradeActivity_upsert_unique_witness :
    uniquePerPair (⟨["a1"],
        [⟨"a1", "s1", 90, 100, some "good", "t1", 9, "GRADED", true, "MANUAL"⟩]⟩ :
        GradebookDB).submissions
    ∧ findSubmission
        ⟨["a1"], [⟨"a1", "s1", 90, 100, some "good", "t1", 9, "GRADED", true, "MANUAL"⟩]⟩
        "a1" "s1"
      = some ⟨"a1", "s1", 90, 100, some "good", "t1", 9, "GRADED", true, "MANUAL"⟩
    ∧ ([(⟨"a1", "s1", 90, 100, some "good", "t1", 9, "GRADED", true, "MANUAL"⟩ :
        SubmissionRecord)]).length
      = ([(⟨"a1", "s1", 50, 100, none, "t0", 1, "GRADED", false, "MANUAL"⟩ :
        SubmissionRecord)]).length := by
  have h := gradeActivity_upsert_unique
    ⟨["a1"], [⟨"a1", "s1", 50, 100, none, "t0", 1, "GRADED", false, "MANUAL"⟩]⟩
    "t1" ⟨"a1", "s1", 90, 100, some "good"⟩ 9
    ⟨"a1", "s1", 90, 100, some "good", "t1", 9, "GRADED", true, "MANUAL"⟩
    ⟨["a1"], [⟨"a1", "s1", 90, 100, some "good", "t1", 9, "GRADED", true, "MANUAL"⟩]⟩
    (by simp [uniquePerPair])
    (by norm_num [gradeActivity, submissionDataOf, upsertSubmission, sameKey])
  exact ⟨h.1, h.2.1, h.2.2.2.2.2.2.2.1 (by decide)⟩
